import Mathlib

/-!
# Verification of the CMnew RTW case-management application

Shallow embedding, in Lean 4, of the algorithmic parts of the CMnew
repository (a Return-to-Work case-management web app), together with
theorems settling the frozen specification claims.

Conventions of the embedding:
* JavaScript strings are modelled as `String` / `List Char`; the string
  operations used by the code (`split('\n')`, `trim`, `toLowerCase`,
  `includes`, `startsWith`) are implemented below at the character level.
* JavaScript floating-point numbers are modelled as exact rationals `ℚ`
  (the code only halves, scales by 0.75 / 0.9 and multiplies by 5).
* A numeric form field that the code stores as a string is modelled as
  `Option ℚ`: `none` is the empty string `''`, `some q` is the decimal
  rendering of `q` (so `some 0` is the string `'0'`).
* All functions are total Lean `def`s, so "never throws" holds by
  construction wherever a claim states it.
-/

namespace CMnew

/-! ## Character-level string utilities (JS semantics) -/

/-- JS whitespace for `trim` / `\s`, restricted to the ASCII range the
application ever feeds it. -/
def isWs (c : Char) : Bool :=
  c = ' ' || c = '\t' || c = '\n' || c = '\r'

/-- Embeds `String.prototype.trim`. -/
def trimChars (cs : List Char) : List Char :=
  ((cs.dropWhile isWs).reverse.dropWhile isWs).reverse

/-- Embeds `String.prototype.toLowerCase` (ASCII; the keyword tests only involve
ASCII letters). -/
def lowerChars (cs : List Char) : List Char :=
  cs.map Char.toLower

/-- Embeds `String.prototype.split('\n')`. -/
def splitNl : List Char → List (List Char)
  | [] => [[]]
  | c :: cs =>
    let r := splitNl cs
    if c = '\n' then [] :: r
    else
      match r with
      | [] => [[c]]
      | l :: ls => (c :: l) :: ls

/-- Does `p` occur as an initial segment of `cs`? -/
def leadsWith : List Char → List Char → Bool
  | [], _ => true
  | _ :: _, [] => false
  | p :: ps, c :: cs => p = c && leadsWith ps cs

/-- Embeds `String.prototype.includes`: does `pat` occur contiguously in `cs`? -/
def hasSub : List Char → List Char → Bool
  | cs, pat =>
    if leadsWith pat cs then true
    else
      match cs with
      | [] => false
      | _ :: rest => hasSub rest pat

/-- Embeds `cs.includes(pat)` with a string pattern. -/
def containsStr (cs : List Char) (pat : String) : Bool :=
  hasSub cs pat.data

/-- Embeds `String.prototype.startsWith` for a single character. -/
def startsWithChar (cs : List Char) (c : Char) : Bool :=
  match cs with
  | [] => false
  | x :: _ => x = c

/-! ## Decimal parsing (`parseFloat` and the hours regex) -/

def isDigit (c : Char) : Bool := '0' ≤ c && c ≤ '9'

/-- Numeric value of a digit string (most significant first). -/
def digitsToNat (ds : List Char) : Nat :=
  ds.foldl (fun n c => 10 * n + (c.toNat - 48)) 0

/-- Value of `ip.fp` as an exact rational. -/
def decToRat (ip fp : List Char) : ℚ :=
  (digitsToNat ip : ℚ) + (digitsToNat fp : ℚ) / (10 ^ fp.length : ℚ)

/-- Attempt to match the regex `(\d+(?:\.\d+)?)\s*hours?` (flag `i`)
anchored at the start of `cs`; returns the captured number.  The
quantifiers are greedy; for this pattern greedy matching is equivalent to
full backtracking (shrinking a digit run always leaves a digit in a
position where the pattern needs `.`, whitespace or `h`). -/
def matchNumHoursAt (cs : List Char) : Option (List Char) :=
  let ds := cs.takeWhile isDigit
  let rest := cs.dropWhile isDigit
  if ds = [] then none
  else
    let capRest :=
      match rest with
      | '.' :: r =>
        let fs := r.takeWhile isDigit
        if fs = [] then (ds, rest) else (ds ++ '.' :: fs, r.dropWhile isDigit)
      | _ => (ds, rest)
    let tail := capRest.2.dropWhile isWs
    match tail with
    | h :: o :: u :: r :: _ =>
      if h.toLower = 'h' && o.toLower = 'o' && u.toLower = 'u' && r.toLower = 'r'
      then some capRest.1 else none
    | _ => none

/-- Embeds `str.match(/(\d+(?:\.\d+)?)\s*hours?/i)`: first position (left to
right) at which the pattern matches; returns capture group 1. -/
def findNumHours : List Char → Option (List Char)
  | [] => none
  | c :: cs =>
    match matchNumHoursAt (c :: cs) with
    | some cap => some cap
    | none => findNumHours cs

/-- Embeds `parseFloat` applied to a regex capture of shape `\d+(\.\d+)?`
(always exact as a decimal). -/
def capToRat (cap : List Char) : ℚ :=
  decToRat (cap.takeWhile isDigit)
    (match cap.dropWhile isDigit with
     | '.' :: fs => fs
     | _ => [])

/-! ## `parseRTWRecommendations` (src/components/ai/RTWChatbot.tsx)

The chatbot splits the AI response into lines, classifies each line as a
section header or content by keyword tests, accumulates content per
section, and then turns the accumulated hours text into a four-week
schedule via a single regex match scaled by 50/75/90/100 %.
-/

/-- One week of the recommendation schedule.  Each field is a numeric
string: `none` = `''`, `some q` = the decimal string for `q`. -/
structure WeekHours where
  mon : Option ℚ
  tue : Option ℚ
  wed : Option ℚ
  thu : Option ℚ
  fri : Option ℚ
  sat : Option ℚ
  sun : Option ℚ
  total : Option ℚ
deriving DecidableEq, Repr

def emptyWeek : WeekHours := ⟨none, none, none, none, none, none, none, none⟩

/-- Result record of `parseRTWRecommendations`. -/
structure RTWRecommendations where
  dutiesTasks : String
  workplaceSupports : String
  dutiesToAvoid : String
  medicalRestrictions : String
  week1Hours : WeekHours
  week2Hours : WeekHours
  week3Hours : WeekHours
  week4Hours : WeekHours
deriving DecidableEq, Repr

/-- Section-header detection: the `if`/`else if` keyword chain of the
source, applied to the trimmed line.  Returns the name assigned to
`currentSection`, or `none` for a non-header line. -/
def detectSection (t : List Char) : Option String :=
  let low := lowerChars t
  if containsStr low "duties" && containsStr low "tasks" then some "duties"
  else if containsStr low "workplace" || containsStr low "supports" then some "supports"
  else if containsStr low "avoid" || containsStr low "restricted" then some "avoid"
  else if containsStr low "medical" || containsStr low "restrictions" then some "medical"
  else if containsStr low "hours" || containsStr low "progression" then some "hours"
  else none

/-- Embeds `acc += (acc ? '\n' : '') + line`. -/
def appendLine (acc t : List Char) : List Char :=
  if acc = [] then t else acc ++ '\n' :: t

/-- The mutable locals of the `forEach` loop. -/
structure ParseState where
  currentSection : String
  dutiesTasks : List Char
  workplaceSupports : List Char
  dutiesToAvoid : List Char
  medicalRestrictions : List Char
  hoursRecommendation : List Char
deriving DecidableEq, Repr

def initState : ParseState := ⟨"", [], [], [], [], []⟩

/-- Is a trimmed line accumulated as content?  (The source requires a
non-empty line that does not start with `-` or `•`.) -/
def isContentLine (t : List Char) : Bool :=
  t ≠ [] && !startsWithChar t '-' && !startsWithChar t '•'

/-- Body of the `lines.forEach` loop. -/
def parseLine (st : ParseState) (line : List Char) : ParseState :=
  let t := trimChars line
  match detectSection t with
  | some sec => { st with currentSection := sec }
  | none =>
    if isContentLine t then
      if st.currentSection = "duties" then
        { st with dutiesTasks := appendLine st.dutiesTasks t }
      else if st.currentSection = "supports" then
        { st with workplaceSupports := appendLine st.workplaceSupports t }
      else if st.currentSection = "avoid" then
        { st with dutiesToAvoid := appendLine st.dutiesToAvoid t }
      else if st.currentSection = "medical" then
        { st with medicalRestrictions := appendLine st.medicalRestrictions t }
      else if st.currentSection = "hours" then
        { st with hoursRecommendation := appendLine st.hoursRecommendation t }
      else st
    else st

/-- Embeds `aiResponse.split('\n').filter(line => line.trim())` followed by the
`forEach` accumulation loop. -/
def runParse (s : String) : ParseState :=
  ((splitNl s.data).filter (fun l => trimChars l ≠ [])).foldl parseLine initState

/-- One populated week: weekdays at `q`, weekend at `'0'`, total `q * 5`. -/
def fillWeek (q : ℚ) : WeekHours :=
  ⟨some q, some q, some q, some q, some q, some 0, some 0, some (q * 5)⟩

/-- The hours-progression block: if the accumulated hours text is
non-empty and matches the number-of-hours regex, scale the base hours by
50/75/90/100 % across the four weeks. -/
def hoursWeeks (hrec : List Char) : WeekHours × WeekHours × WeekHours × WeekHours :=
  if hrec = [] then (emptyWeek, emptyWeek, emptyWeek, emptyWeek)
  else
    match findNumHours hrec with
    | none => (emptyWeek, emptyWeek, emptyWeek, emptyWeek)
    | some cap =>
      let baseHours := capToRat cap
      (fillWeek (baseHours * 0.5), fillWeek (baseHours * 0.75),
       fillWeek (baseHours * 0.9), fillWeek (baseHours * 1))

def defaultDutiesTasks : String :=
  "Duties and tasks to be determined based on worker capacity and medical recommendations."
def defaultWorkplaceSupports : String :=
  "Workplace supports and modifications to be determined based on worker needs and workplace assessment."
def defaultDutiesToAvoid : String :=
  "Duties to be avoided will be determined based on medical restrictions and worker capacity assessment."
def defaultMedicalRestrictions : String :=
  "Medical restrictions to be determined based on current medical certificates and treating practitioner recommendations."

/-- Embeds `s || default`. -/
def orDefault (cs : List Char) (d : String) : String :=
  if cs = [] then d else String.mk cs

/-- Embeds `parseRTWRecommendations` of `RTWChatbot.tsx` (the identical logic is
inlined in `RTWPlanner.tsx`'s `generateAIRecommendations`). -/
def parseRTWRecommendations (aiResponse : String) : RTWRecommendations :=
  let st := runParse aiResponse
  let w := hoursWeeks st.hoursRecommendation
  { dutiesTasks := orDefault st.dutiesTasks defaultDutiesTasks
    workplaceSupports := orDefault st.workplaceSupports defaultWorkplaceSupports
    dutiesToAvoid := orDefault st.dutiesToAvoid defaultDutiesToAvoid
    medicalRestrictions := orDefault st.medicalRestrictions defaultMedicalRestrictions
    week1Hours := w.1
    week2Hours := w.2.1
    week3Hours := w.2.2.1
    week4Hours := w.2.2.2 }

/-! ## Specification-level view of the section accumulation

The claims describe the line-to-section assignment declaratively: every
line belongs to the section selected by the most recent preceding header
line, and the contents of a section are its assigned lines joined by
newlines.  The functions below state that reading directly; the fold
characterisation lemma connects them to the single-pass loop above.
-/

/-- The trimmed, non-blank lines of the response, in input order. -/
def linesOf (s : String) : List (List Char) :=
  ((splitNl s.data).filter (fun l => trimChars l ≠ [])).map trimChars

/-- Lines assigned to section `sec` exactly as the claim words it: the
current section (initially `cur`) is the most recent header seen so far,
and every non-header line's content is accumulated. -/
def claimAssigned : List (List Char) → String → String → List (List Char)
  | [], _, _ => []
  | l :: ls, cur, sec =>
    match detectSection l with
    | some s2 => claimAssigned ls s2 sec
    | none => (if cur = sec then [l] else []) ++ claimAssigned ls cur sec

/-- The claim amended to what the code does: a non-header line is
accumulated only when it is non-empty and does not start with `-` or
`•`. -/
def amendedAssigned : List (List Char) → String → String → List (List Char)
  | [], _, _ => []
  | l :: ls, cur, sec =>
    match detectSection l with
    | some s2 => amendedAssigned ls s2 sec
    | none =>
      (if isContentLine l && cur = sec then [l] else []) ++ amendedAssigned ls cur sec

/-- Join with `'\n'` separators. -/
def joinNl : List (List Char) → List Char
  | [] => []
  | l :: ls => if ls = [] then l else l ++ '\n' :: joinNl ls

/-- The section selected by the most recent header of `lines` (initially
`cur`). -/
def lastHeader : List (List Char) → String → String
  | [], cur => cur
  | l :: ls, cur =>
    match detectSection l with
    | some s2 => lastHeader ls s2
    | none => lastHeader ls cur

lemma amendedAssigned_ne_nil :
    ∀ (lines : List (List Char)) (cur sec : String),
      ∀ l ∈ amendedAssigned lines cur sec, l ≠ []
  | [], _, _ => by simp [amendedAssigned]
  | l :: ls, cur, sec => by
    intro x hx
    rw [amendedAssigned] at hx
    cases h : detectSection l with
    | some s2 =>
      rw [h] at hx
      exact amendedAssigned_ne_nil ls s2 sec x hx
    | none =>
      rw [h] at hx
      rcases List.mem_append.mp hx with hx1 | hx2
      · cases hcl : isContentLine l with
        | false => simp [hcl] at hx1
        | true =>
          have hl : x = l := by
            by_cases hcur : cur = sec
            · simpa [hcl, hcur] using hx1
            · simp [hcl, hcur] at hx1
          subst hl
          intro hnil
          rw [hnil] at hcl
          exact absurd hcl (by decide)
      · exact amendedAssigned_ne_nil ls cur sec x hx2

lemma foldl_appendLine (ls : List (List Char)) (h : ∀ l ∈ ls, l ≠ []) :
    ∀ acc : List Char,
      ls.foldl appendLine acc =
        if acc = [] then joinNl ls
        else if ls = [] then acc else acc ++ '\n' :: joinNl ls := by
  induction ls with
  | nil =>
    intro acc
    by_cases hacc : acc = [] <;> simp [hacc, joinNl]
  | cons l ls ih =>
    intro acc
    have hl : l ≠ [] := h l (by simp)
    have hrest : ∀ x ∈ ls, x ≠ [] := fun x hx => h x (by simp [hx])
    rw [List.foldl_cons, ih hrest]
    by_cases hacc : acc = []
    · subst hacc
      have happ : appendLine [] l = l := by simp [appendLine]
      rw [happ]
      by_cases hls : ls = []
      · subst hls; simp [joinNl, hl]
      · simp [joinNl, hl, hls]
    · have happ : appendLine acc l = acc ++ '\n' :: l := by simp [appendLine, hacc]
      rw [happ]
      have hne : acc ++ '\n' :: l ≠ [] := by simp
      by_cases hls : ls = []
      · subst hls; simp [joinNl, hacc, hne]
      · simp [joinNl, hacc, hne, hls]

/-- Characterisation of the accumulation loop: after folding over the
lines, the current section is the last header seen and every section
accumulator holds exactly its assigned lines. -/
lemma foldl_parseLine_eq :
    ∀ (lines : List (List Char)) (st : ParseState),
      lines.foldl parseLine st =
        ⟨lastHeader (lines.map trimChars) st.currentSection,
         (amendedAssigned (lines.map trimChars) st.currentSection "duties").foldl
           appendLine st.dutiesTasks,
         (amendedAssigned (lines.map trimChars) st.currentSection "supports").foldl
           appendLine st.workplaceSupports,
         (amendedAssigned (lines.map trimChars) st.currentSection "avoid").foldl
           appendLine st.dutiesToAvoid,
         (amendedAssigned (lines.map trimChars) st.currentSection "medical").foldl
           appendLine st.medicalRestrictions,
         (amendedAssigned (lines.map trimChars) st.currentSection "hours").foldl
           appendLine st.hoursRecommendation⟩
  | [], st => rfl
  | l :: ls, st => by
    rw [List.foldl_cons]
    cases h : detectSection (trimChars l) with
    | some sec =>
      have hstep : parseLine st l = { st with currentSection := sec } := by
        simp [parseLine, h]
      rw [hstep, foldl_parseLine_eq ls]
      simp only [List.map_cons, lastHeader, amendedAssigned, h]
    | none =>
      by_cases hc : isContentLine (trimChars l) = true
      · by_cases h1 : st.currentSection = "duties"
        · have hstep : parseLine st l =
              { st with dutiesTasks := appendLine st.dutiesTasks (trimChars l) } := by
            simp [parseLine, h, hc, h1]
          rw [hstep, foldl_parseLine_eq ls]
          simp only [List.map_cons, lastHeader, amendedAssigned, h, hc, h1]
          simp
        · by_cases h2 : st.currentSection = "supports"
          · have hstep : parseLine st l =
                { st with workplaceSupports := appendLine st.workplaceSupports (trimChars l) } := by
              simp [parseLine, h, hc, h1, h2]
            rw [hstep, foldl_parseLine_eq ls]
            simp only [List.map_cons, lastHeader, amendedAssigned, h, hc, h2]
            simp [h1]
          · by_cases h3 : st.currentSection = "avoid"
            · have hstep : parseLine st l =
                  { st with dutiesToAvoid := appendLine st.dutiesToAvoid (trimChars l) } := by
                simp [parseLine, h, hc, h1, h2, h3]
              rw [hstep, foldl_parseLine_eq ls]
              simp only [List.map_cons, lastHeader, amendedAssigned, h, hc, h3]
              simp [h1, h2]
            · by_cases h4 : st.currentSection = "medical"
              · have hstep : parseLine st l =
                    { st with medicalRestrictions :=
                        appendLine st.medicalRestrictions (trimChars l) } := by
                  simp [parseLine, h, hc, h1, h2, h3, h4]
                rw [hstep, foldl_parseLine_eq ls]
                simp only [List.map_cons, lastHeader, amendedAssigned, h, hc, h4]
                simp [h1, h2, h3]
              · by_cases h5 : st.currentSection = "hours"
                · have hstep : parseLine st l =
                      { st with hoursRecommendation :=
                          appendLine st.hoursRecommendation (trimChars l) } := by
                    simp [parseLine, h, hc, h1, h2, h3, h4, h5]
                  rw [hstep, foldl_parseLine_eq ls]
                  simp only [List.map_cons, lastHeader, amendedAssigned, h, hc, h5]
                  simp [h1, h2, h3, h4]
                · have hstep : parseLine st l = st := by
                    simp [parseLine, h, hc, h1, h2, h3, h4, h5]
                  rw [hstep, foldl_parseLine_eq ls]
                  simp only [List.map_cons, lastHeader, amendedAssigned, h, hc]
                  simp [h1, h2, h3, h4, h5]
      · have hstep : parseLine st l = st := by
          simp [parseLine, h]
          intro hcontra
          exact absurd hcontra hc
        rw [hstep, foldl_parseLine_eq ls]
        have hc' : isContentLine (trimChars l) = false := by
          simpa using hc
        simp only [List.map_cons, lastHeader, amendedAssigned, h, hc']
        simp

/-! ## Helper lemmas for the hours claims -/

/-- A week whose weekdays are all `v`, whose weekend entries are the
string `'0'`, and whose total is five times the weekday value. -/
abbrev WeekSet (w : WeekHours) (v : ℚ) : Prop :=
  w.mon = some v ∧ w.tue = some v ∧ w.wed = some v ∧ w.thu = some v ∧
    w.fri = some v ∧ w.sat = some 0 ∧ w.sun = some 0 ∧ w.total = some (5 * v)

lemma weekSet_fillWeek (q : ℚ) : WeekSet (fillWeek q) q := by
  refine ⟨rfl, rfl, rfl, rfl, rfl, rfl, rfl, ?_⟩
  simp [fillWeek, mul_comm]

lemma parse_hours_fill (s : String) (cap : List Char)
    (hmatch : findNumHours (runParse s).hoursRecommendation = some cap) :
    (parseRTWRecommendations s).week1Hours = fillWeek (capToRat cap * 0.5) ∧
    (parseRTWRecommendations s).week2Hours = fillWeek (capToRat cap * 0.75) ∧
    (parseRTWRecommendations s).week3Hours = fillWeek (capToRat cap * 0.9) ∧
    (parseRTWRecommendations s).week4Hours = fillWeek (capToRat cap * 1) := by
  have hne : (runParse s).hoursRecommendation ≠ [] := by
    intro hnil
    rw [hnil] at hmatch
    exact Option.noConfusion hmatch
  simp [parseRTWRecommendations, hoursWeeks, if_neg hne, hmatch]

lemma capToRat_two_zero : capToRat ['2', '0'] = 20 := by
  have h : capToRat ['2', '0'] = decToRat ['2', '0'] [] := rfl
  have h2 : digitsToNat ['2', '0'] = 20 := by decide
  rw [h]
  unfold decToRat
  rw [h2]
  norm_num [digitsToNat]

lemma capToRat_eight : capToRat ['8'] = 8 := by
  have h : capToRat ['8'] = decToRat ['8'] [] := rfl
  have h2 : digitsToNat ['8'] = 8 := by decide
  rw [h]
  unfold decToRat
  rw [h2]
  norm_num [digitsToNat]

lemma foldl_parseLine_id (lines : List (List Char)) (st : ParseState)
    (hcur : st.currentSection = "")
    (h : ∀ l ∈ lines, detectSection (trimChars l) = none) :
    lines.foldl parseLine st = st := by
  induction lines with
  | nil => rfl
  | cons l ls ih =>
    have hl := h l (by simp)
    have hstep : parseLine st l = st := by
      simp [parseLine, hl, hcur]
    rw [List.foldl_cons, hstep]
    exact ih fun x hx => h x (by simp [hx])

/-! ## Claims C1–C4 -/

/-- C1, counterexample: the response `"20 hours"` contains the text
`"20 hours"`, yet the parser leaves the entire hours schedule empty
(week-1 total is the empty string, not 50): any line containing the word
`hours` is consumed as a section *header*, so its own text never reaches
the hours accumulator and no schedule is produced. -/
theorem rtw_hours_20_claim_counterexample :
    containsStr ("20 hours".data) "20 hours" = true ∧
    (parseRTWRecommendations "20 hours").week1Hours.total = none ∧
    (parseRTWRecommendations "20 hours").week4Hours.total = none ∧
    (parseRTWRecommendations "20 hours").week1Hours.mon = none := by
  refine ⟨by decide, by decide, by decide, by decide⟩

/-- C1 (amended): whenever the *accumulated hours-section text* of the
response (content lines following an `hours`/`progression` header) has a
first `number + "hour(s)"` regex match whose numeric value is 20, the
parser produces a fully populated four-week schedule with weekday values
10/15/18/20, weekends 0, week-1 total 50 and week-4 total 100. -/
theorem rtw_hours_20_amended (s : String) (cap : List Char)
    (hmatch : findNumHours (runParse s).hoursRecommendation = some cap)
    (h20 : capToRat cap = 20) :
    WeekSet (parseRTWRecommendations s).week1Hours 10 ∧
    WeekSet (parseRTWRecommendations s).week2Hours 15 ∧
    WeekSet (parseRTWRecommendations s).week3Hours 18 ∧
    WeekSet (parseRTWRecommendations s).week4Hours 20 ∧
    (parseRTWRecommendations s).week1Hours.total = some 50 ∧
    (parseRTWRecommendations s).week4Hours.total = some 100 := by
  obtain ⟨h1, h2, h3, h4⟩ := parse_hours_fill s cap hmatch
  rw [h20] at h1 h2 h3 h4
  have e1 : (20 : ℚ) * 0.5 = 10 := by norm_num
  have e2 : (20 : ℚ) * 0.75 = 15 := by norm_num
  have e3 : (20 : ℚ) * 0.9 = 18 := by norm_num
  have e4 : (20 : ℚ) * 1 = 20 := by norm_num
  rw [e1] at h1; rw [e2] at h2; rw [e3] at h3; rw [e4] at h4
  refine ⟨h1 ▸ weekSet_fillWeek 10, h2 ▸ weekSet_fillWeek 15,
          h3 ▸ weekSet_fillWeek 18, h4 ▸ weekSet_fillWeek 20, ?_, ?_⟩
  · rw [h1]; simp [fillWeek]; norm_num
  · rw [h4]; simp [fillWeek]; norm_num

/-- Witness for the amended C1 at a concrete response. -/
theorem rtw_hours_20_amended_witness :
    findNumHours (runParse "Hours progression:\nStart with 20 hour shifts").hoursRecommendation
        = some ['2', '0'] ∧
    capToRat ['2', '0'] = 20 ∧
    WeekSet (parseRTWRecommendations "Hours progression:\nStart with 20 hour shifts").week1Hours 10 ∧
    WeekSet (parseRTWRecommendations "Hours progression:\nStart with 20 hour shifts").week4Hours 20 :=
  ⟨by decide, capToRat_two_zero,
   (rtw_hours_20_amended "Hours progression:\nStart with 20 hour shifts" ['2', '0']
     (by decide) capToRat_two_zero).1,
   (rtw_hours_20_amended "Hours progression:\nStart with 20 hour shifts" ['2', '0']
     (by decide) capToRat_two_zero).2.2.2.1⟩

/-- C2: when the hours section's accumulated text yields a first regex
match with value `h`, every weekday of weeks 1–4 is set to 50 %, 75 %,
90 % and 100 % of `h` respectively, every weekend entry to `'0'`, and
every week total to five times that week's weekday value. -/
theorem rtw_hours_scaling (s : String) (cap : List Char)
    (hmatch : findNumHours (runParse s).hoursRecommendation = some cap) :
    WeekSet (parseRTWRecommendations s).week1Hours (capToRat cap * 0.5) ∧
    WeekSet (parseRTWRecommendations s).week2Hours (capToRat cap * 0.75) ∧
    WeekSet (parseRTWRecommendations s).week3Hours (capToRat cap * 0.9) ∧
    WeekSet (parseRTWRecommendations s).week4Hours (capToRat cap) := by
  obtain ⟨h1, h2, h3, h4⟩ := parse_hours_fill s cap hmatch
  rw [mul_one] at h4
  exact ⟨h1 ▸ weekSet_fillWeek _, h2 ▸ weekSet_fillWeek _,
         h3 ▸ weekSet_fillWeek _, h4 ▸ weekSet_fillWeek _⟩

/-- Witness for C2 at a concrete response (base hours 8). -/
theorem rtw_hours_scaling_witness :
    findNumHours (runParse "Recommended hours:\nBegin at 8 hour days").hoursRecommendation
        = some ['8'] ∧
    WeekSet (parseRTWRecommendations "Recommended hours:\nBegin at 8 hour days").week1Hours
      (capToRat ['8'] * 0.5) ∧
    WeekSet (parseRTWRecommendations "Recommended hours:\nBegin at 8 hour days").week4Hours
      (capToRat ['8']) :=
  ⟨by decide,
   (rtw_hours_scaling "Recommended hours:\nBegin at 8 hour days" ['8'] (by decide)).1,
   (rtw_hours_scaling "Recommended hours:\nBegin at 8 hour days" ['8'] (by decide)).2.2.2⟩

/-- C3, counterexample: under the claim's reading, the bullet line
`- light lifting` following the `Duties and tasks:` header is assigned to
the duties section and accumulated; the code drops every line starting
with `-` or `•`, so its duties accumulator stays empty and the parser
falls back to the default placeholder text. -/
theorem rtw_section_claim_counterexample :
    (runParse "Duties and tasks:\n- light lifting").dutiesTasks = [] ∧
    joinNl (claimAssigned (linesOf "Duties and tasks:\n- light lifting") "" "duties") =
      "- light lifting".data ∧
    (parseRTWRecommendations "Duties and tasks:\n- light lifting").dutiesTasks =
      defaultDutiesTasks := by
  exact ⟨by decide, by decide, by decide⟩

/-- C3 (amended): the parser splits the response into trimmed non-blank
lines and assigns each line to the section selected by the most recent
preceding keyword-matching header line, accumulating content in input
order separated by newlines — except that header lines themselves, and
lines whose trimmed content starts with `-` or `•`, are not accumulated,
and lines before any header are dropped. -/
theorem rtw_section_assignment_amended (s : String) :
    (runParse s).currentSection = lastHeader (linesOf s) "" ∧
    (runParse s).dutiesTasks = joinNl (amendedAssigned (linesOf s) "" "duties") ∧
    (runParse s).workplaceSupports = joinNl (amendedAssigned (linesOf s) "" "supports") ∧
    (runParse s).dutiesToAvoid = joinNl (amendedAssigned (linesOf s) "" "avoid") ∧
    (runParse s).medicalRestrictions = joinNl (amendedAssigned (linesOf s) "" "medical") ∧
    (runParse s).hoursRecommendation = joinNl (amendedAssigned (linesOf s) "" "hours") := by
  have hrun : runParse s =
      ⟨lastHeader (linesOf s) "",
       (amendedAssigned (linesOf s) "" "duties").foldl appendLine [],
       (amendedAssigned (linesOf s) "" "supports").foldl appendLine [],
       (amendedAssigned (linesOf s) "" "avoid").foldl appendLine [],
       (amendedAssigned (linesOf s) "" "medical").foldl appendLine [],
       (amendedAssigned (linesOf s) "" "hours").foldl appendLine []⟩ :=
    foldl_parseLine_eq ((splitNl s.data).filter (fun l => trimChars l ≠ [])) initState
  have hj : ∀ sec : String,
      (amendedAssigned (linesOf s) "" sec).foldl appendLine [] =
        joinNl (amendedAssigned (linesOf s) "" sec) := by
    intro sec
    rw [foldl_appendLine _ (amendedAssigned_ne_nil _ _ _)]
    simp
  rw [hrun]
  exact ⟨rfl, hj "duties", hj "supports", hj "avoid", hj "medical", hj "hours"⟩

/-- C4: a response in which no line matches any section keyword yields
the four fixed default placeholder texts and an entirely empty hours
schedule.  (The embedding is a total function, so the parser cannot
throw on any input.) -/
theorem parse_no_headers_defaults (s : String)
    (h : ∀ l ∈ linesOf s, detectSection l = none) :
    parseRTWRecommendations s =
      ⟨defaultDutiesTasks, defaultWorkplaceSupports, defaultDutiesToAvoid,
       defaultMedicalRestrictions, emptyWeek, emptyWeek, emptyWeek, emptyWeek⟩ := by
  have hrun : runParse s = initState := by
    apply foldl_parseLine_id _ _ rfl
    intro l hl
    exact h _ (List.mem_map_of_mem _ hl)
  simp [parseRTWRecommendations, hrun, initState, hoursWeeks, orDefault]

/-- Witness for C4 at a concrete keyword-free response. -/
theorem parse_no_headers_defaults_witness :
    (∀ l ∈ linesOf "Hello there\nGeneral feedback text", detectSection l = none) ∧
    parseRTWRecommendations "Hello there\nGeneral feedback text" =
      ⟨defaultDutiesTasks, defaultWorkplaceSupports, defaultDutiesToAvoid,
       defaultMedicalRestrictions, emptyWeek, emptyWeek, emptyWeek, emptyWeek⟩ :=
  ⟨by decide, parse_no_headers_defaults _ (by decide)⟩

/-! ## AI service (src/services/aiService.ts)

The module reads `VITE_OPENAI_API_KEY` at start (modelled as an
`Option String` argument), validates it, and instantiates the OpenAI
client only when valid.  Each method's observable behaviour is either
the fixed "not available" result returned when the client is null (no
network activity at all), or the issuing of a single chat-completion
request; the post-processing of the response text is beyond every claim
and is not modelled past the request.
-/

/-- Embeds `hasValidKey`: the key is truthy, not one of the three placeholder
values, and not whitespace-only. -/
def hasValidKey (openaiApiKey : Option String) : Bool :=
  match openaiApiKey with
  | none => false
  | some k =>
    !(k == "") && !(k == "your_openai_api_key_here") &&
      !(k == "sk-your-openai-api-key") && !(k == "sk-placeholder-key-for-development") &&
      !(trimChars k.data == [])

/-- A chat-completion request: model id and `max_tokens` (the message
payload and temperature are elided — no claim depends on them). -/
structure ChatRequest where
  model : String
  maxTokens : Nat
deriving DecidableEq, Repr

/-- Observable behaviour of one AI-service method call. -/
inductive AICall (α : Type) where
  | disabled (result : α)
  | request (r : ChatRequest)
deriving DecidableEq, Repr

def defaultModel : String := "gpt-4o-mini"

/-- Embeds `getModel()`: the store's selected model when registered, else the
default. -/
def getModel (selectedModel : Option String) : String :=
  match selectedModel with
  | some m => m
  | none => defaultModel

/-- Return record of `analyzeCase`. -/
structure CaseAnalysis where
  insights : String
  recommendations : List String
  riskAssessment : String
  nextSteps : List String
deriving DecidableEq, Repr

def analyzeCaseNotAvailable : CaseAnalysis :=
  ⟨"AI analysis is not available. Please check your OpenAI API configuration.", [],
   "Unable to assess risk without AI service.", []⟩

def chatNotAvailable : String :=
  "I apologize, but I am currently unable to provide AI-powered responses. Please check your OpenAI API configuration or contact support."

/-- Return record of `analyzeDocument`. -/
structure DocumentAnalysis where
  insights : String
  summary : String
  keyPoints : List String
  recommendations : List String
deriving DecidableEq, Repr

def analyzeDocumentNotAvailable : DocumentAnalysis :=
  ⟨"AI analysis is not available. Please check your OpenAI API configuration.",
   "Unable to analyze document without AI service.", [], []⟩

/-- Embeds `AIService.analyzeCase`: the null-client guard, else one completion
request with `max_tokens: 1000`. -/
def analyzeCase (openaiApiKey selectedModel : Option String) : AICall CaseAnalysis :=
  if !hasValidKey openaiApiKey then AICall.disabled analyzeCaseNotAvailable
  else AICall.request ⟨getModel selectedModel, 1000⟩

/-- Embeds `AIService.chatWithRTWExpert`: the null-client guard, else one
completion request with `max_tokens: 800`. -/
def chatWithRTWExpert (openaiApiKey selectedModel : Option String) : AICall String :=
  if !hasValidKey openaiApiKey then AICall.disabled chatNotAvailable
  else AICall.request ⟨getModel selectedModel, 800⟩

/-- Embeds `AIService.analyzeDocument`: the null-client guard, else one
completion request with `max_tokens: 600`. -/
def analyzeDocument (openaiApiKey selectedModel : Option String) : AICall DocumentAnalysis :=
  if !hasValidKey openaiApiKey then AICall.disabled analyzeDocumentNotAvailable
  else AICall.request ⟨getModel selectedModel, 600⟩

/-- The key condition exactly as the claim words it: absent, empty,
whitespace-only, or one of the known placeholder values. -/
def KeyNotConfigured (key : Option String) : Prop :=
  key = none ∨ ∃ k, key = some k ∧
    (trimChars k.data = [] ∨ k = "your_openai_api_key_here" ∨
     k = "sk-your-openai-api-key" ∨ k = "sk-placeholder-key-for-development")

/-- C5: with an absent / empty / whitespace-only / placeholder key, all
three AI operations take the disabled path: they return their fixed
"not available" result and issue no network request.  (Totality of the
embedding gives "without throwing".) -/
theorem ai_disabled_without_key (key selectedModel : Option String)
    (h : KeyNotConfigured key) :
    hasValidKey key = false ∧
    analyzeCase key selectedModel = AICall.disabled analyzeCaseNotAvailable ∧
    chatWithRTWExpert key selectedModel = AICall.disabled chatNotAvailable ∧
    analyzeDocument key selectedModel = AICall.disabled analyzeDocumentNotAvailable := by
  have hkey : hasValidKey key = false := by
    rcases h with hnone | ⟨k, hk, hcase⟩
    · rw [hnone]; rfl
    · subst hk
      rcases hcase with htrim | hp1 | hp2 | hp3
      · simp [hasValidKey, htrim]
      · subst hp1; decide
      · subst hp2; decide
      · subst hp3; decide
  refine ⟨hkey, ?_, ?_, ?_⟩ <;> simp [analyzeCase, chatWithRTWExpert, analyzeDocument, hkey]

/-- Witness for C5 with a whitespace-only key. -/
theorem ai_disabled_without_key_witness :
    KeyNotConfigured (some "   ") ∧
    (hasValidKey (some "   ") = false ∧
     analyzeCase (some "   ") none = AICall.disabled analyzeCaseNotAvailable ∧
     chatWithRTWExpert (some "   ") none = AICall.disabled chatNotAvailable ∧
     analyzeDocument (some "   ") none = AICall.disabled analyzeDocumentNotAvailable) :=
  ⟨Or.inr ⟨"   ", rfl, Or.inl (by decide)⟩,
   ai_disabled_without_key (some "   ") none (Or.inr ⟨"   ", rfl, Or.inl (by decide)⟩)⟩

/-! ## AI settings store (src/store/aiSettingsStore.ts) -/

/-- An HTTP response as `fetch` delivers it. -/
structure HttpResponse where
  status : Nat
  statusText : String
deriving DecidableEq, Repr

/-- Embeds `Response.ok`: status in the 2xx range. -/
def respOk (r : HttpResponse) : Bool :=
  200 ≤ r.status && r.status < 300

/-- Outcome of the awaited `fetch`: a delivered response, or a thrown
network error (whose message the catch block surfaces). -/
inductive FetchResult where
  | response (r : HttpResponse)
  | failure (msg : String)
deriving DecidableEq, Repr

/-- The connection fields `checkConnection` sets. -/
structure ConnState where
  connectionStatus : String
  isConnected : Bool
  errorMessage : Option String
deriving DecidableEq, Repr

/-- The store's own inline key test (the source duplicates
`hasValidKey`'s condition, negated): truthy-false, placeholder, or
whitespace-only. -/
def storeKeyInvalid (apiKey : Option String) : Bool :=
  match apiKey with
  | none => true
  | some k =>
    (k == "") || (k == "your_openai_api_key_here") || (k == "sk-your-openai-api-key") ||
      (k == "sk-placeholder-key-for-development") || (trimChars k.data == [])

def keyNotConfiguredMsg : String :=
  "OpenAI API key not configured. Please add VITE_OPENAI_API_KEY to your .env file."
def invalidApiKeyMsg : String := "Invalid API key. Please check your OpenAI API key."
def rateLimitMsg : String := "Rate limit exceeded. Please try again later."

/-- Decimal digits of `n`, most significant first (the rendering of
`${response.status}`); fuel-structured so the kernel can evaluate it. -/
def natToCharsAux : Nat → Nat → List Char
  | 0, _ => []
  | fuel + 1, n =>
    if n < 10 then [Char.ofNat (48 + n)]
    else natToCharsAux fuel (n / 10) ++ [Char.ofNat (48 + n % 10)]

def natToChars (n : Nat) : List Char := natToCharsAux (n + 1) n

/-- The template literal `API error: ${status} ${statusText}`. -/
def apiErrorMsg (status : Nat) (statusText : String) : String :=
  String.mk ("API error: ".data ++ natToChars status ++ ' ' :: statusText.data)

/-- Embeds `checkConnection`, given the environment key and the result of the
probe request to `/v1/models`.  Returns the fields written by the final
`set`.  (The transient `checking` state and `lastConnectionCheck`
timestamp are not modelled; no claim concerns them.) -/
def checkConnection (apiKey : Option String) (fetchResult : FetchResult) : ConnState :=
  if storeKeyInvalid apiKey then ⟨"error", false, some keyNotConfiguredMsg⟩
  else
    match fetchResult with
    | FetchResult.failure msg => ⟨"error", false, some msg⟩
    | FetchResult.response r =>
      if respOk r then ⟨"connected", true, none⟩
      else if r.status = 401 then ⟨"error", false, some invalidApiKeyMsg⟩
      else if r.status = 429 then ⟨"error", false, some rateLimitMsg⟩
      else ⟨"error", false, some (apiErrorMsg r.status r.statusText)⟩

lemma leadsWith_append (p ys : List Char) : leadsWith p (p ++ ys) = true := by
  induction p with
  | nil => rfl
  | cons c cs ih => simp [leadsWith, ih]

lemma hasSub_cons (c : Char) (cs p : List Char) (h : hasSub cs p = true) :
    hasSub (c :: cs) p = true := by
  unfold hasSub
  split
  · rfl
  · exact h

lemma hasSub_of_middle (pre p post : List Char) :
    hasSub (pre ++ (p ++ post)) p = true := by
  induction pre with
  | nil =>
    unfold hasSub
    simp [leadsWith_append]
  | cons c cs ih =>
    exact hasSub_cons c _ p ih

/-- C6: for a completed `checkConnection` run with a configured key, an
OK response yields `connected` / `isConnected = true` / no error
message; 401 yields the invalid-key message, 429 the rate-limit message,
and any other non-OK status a generic message containing the status
code; `isConnected` is false in every error case. -/
theorem check_connection_status_mapping (apiKey : Option String) (r : HttpResponse)
    (hkey : storeKeyInvalid apiKey = false) :
    (respOk r = true → checkConnection apiKey (FetchResult.response r) = ⟨"connected", true, none⟩) ∧
    (r.status = 401 →
      checkConnection apiKey (FetchResult.response r) = ⟨"error", false, some invalidApiKeyMsg⟩) ∧
    (r.status = 429 →
      checkConnection apiKey (FetchResult.response r) = ⟨"error", false, some rateLimitMsg⟩) ∧
    (respOk r = false → r.status ≠ 401 → r.status ≠ 429 →
      ∃ m : String, checkConnection apiKey (FetchResult.response r) = ⟨"error", false, some m⟩ ∧
        hasSub m.data (natToChars r.status) = true) := by
  refine ⟨?_, ?_, ?_, ?_⟩
  · intro hok
    simp [checkConnection, hkey, hok]
  · intro h401
    have hnotok : respOk r = false := by
      simp [respOk, h401]
    simp [checkConnection, hkey, hnotok, h401]
  · intro h429
    have hnotok : respOk r = false := by
      simp [respOk, h429]
    simp [checkConnection, hkey, hnotok, h429]
  · intro hnotok h401 h429
    refine ⟨apiErrorMsg r.status r.statusText, ?_, ?_⟩
    · simp [checkConnection, hkey, hnotok, h401, h429]
    · show hasSub ("API error: ".data ++ (natToChars r.status ++ ' ' :: r.statusText.data)) _ = true
      exact hasSub_of_middle _ _ _

/-- Witness for C6: a configured key and a 500 response. -/
theorem check_connection_status_mapping_witness :
    storeKeyInvalid (some "sk-test-key") = false ∧
    respOk ⟨500, "Internal Server Error"⟩ = false ∧
    (∃ m : String,
      checkConnection (some "sk-test-key") (FetchResult.response ⟨500, "Internal Server Error"⟩) =
        ⟨"error", false, some m⟩ ∧
      hasSub m.data (natToChars 500) = true) :=
  ⟨by decide, by decide,
   (check_connection_status_mapping (some "sk-test-key") ⟨500, "Internal Server Error"⟩
      (by decide)).2.2.2 (by decide) (by decide) (by decide)⟩

/-! ## RTW Planner form (src/components/cases/RTWPlanner.tsx)

`RTWFormData` here carries the twelve required fields; the remaining
form fields (supervisor details, signatures, the week-hours tables,
notes, …) never enter `isFormCompleted` or the branch decisions of
`generatePDF` and are omitted from this record.
-/

structure RTWFormData where
  workerName : String
  claimNumber : String
  jobTitle : String
  employerName : String
  dutiesTasks : String
  workplaceSupports : String
  dutiesToAvoid : String
  medicalRestrictions : String
  startDate : String
  reviewDate : String
  preparedByName : String
  preparedByPhone : String
deriving DecidableEq, Repr

/-- The `requiredFields` array of `isFormCompleted`, in source order. -/
def requiredFields (f : RTWFormData) : List String :=
  [f.workerName, f.claimNumber, f.jobTitle, f.employerName, f.dutiesTasks,
   f.workplaceSupports, f.dutiesToAvoid, f.medicalRestrictions, f.startDate,
   f.reviewDate, f.preparedByName, f.preparedByPhone]

/-- Embeds `isFormCompleted`: every required field is truthy and non-blank
after trimming. -/
def isFormCompleted (f : RTWFormData) : Bool :=
  (requiredFields f).all fun field => !(field == "") && !(trimChars field.data == [])

/-- What a `generatePDF` call does. -/
inductive PDFOutcome where
  | blockedIncomplete
  | blockedPopup
  | printed
deriving DecidableEq, Repr

/-- Embeds `generatePDF`: alert-and-return when the form is incomplete, alert
when the popup is blocked, otherwise write the document into the print
window (the HTML document markup is presentation and is elided). -/
def generatePDF (f : RTWFormData) (popupAllowed : Bool) : PDFOutcome :=
  if !isFormCompleted f then PDFOutcome.blockedIncomplete
  else if !popupAllowed then PDFOutcome.blockedPopup
  else PDFOutcome.printed

/-- C7: `generatePDF` opens the print document only when
`isFormCompleted` holds — that is, only when all twelve required fields
are non-blank after trimming — and returns immediately (producing
nothing) whenever any required field is blank. -/
theorem pdf_requires_completed_form (f : RTWFormData) (popupAllowed : Bool) :
    (isFormCompleted f = true ↔ ∀ s ∈ requiredFields f, trimChars s.data ≠ []) ∧
    (generatePDF f popupAllowed = PDFOutcome.printed ↔
      (isFormCompleted f = true ∧ popupAllowed = true)) ∧
    (isFormCompleted f = false → generatePDF f popupAllowed = PDFOutcome.blockedIncomplete) := by
  have hfield : ∀ s : String,
      (!(s == "") && !(trimChars s.data == [])) = true ↔ trimChars s.data ≠ [] := by
    intro s
    constructor
    · intro h
      simp only [Bool.and_eq_true, Bool.not_eq_true', beq_eq_false_iff_ne] at h
      exact h.2
    · intro h
      simp only [Bool.and_eq_true, Bool.not_eq_true', beq_eq_false_iff_ne]
      refine ⟨?_, h⟩
      intro hs
      subst hs
      exact h rfl
  refine ⟨?_, ?_, ?_⟩
  · rw [isFormCompleted, List.all_eq_true]
    constructor
    · intro h s hs
      exact (hfield s).mp (h s hs)
    · intro h s hs
      exact (hfield s).mpr (h s hs)
  · unfold generatePDF
    constructor
    · intro h
      by_cases hc : isFormCompleted f = true
      · by_cases hp : popupAllowed = true
        · exact ⟨hc, hp⟩
        · simp [hc, hp] at h
      · have hcf : isFormCompleted f = false := by
          cases hval : isFormCompleted f
          · rfl
          · exact absurd hval hc
        simp [hcf] at h
    · rintro ⟨hc, hp⟩
      simp [hc, hp]
  · intro h
    simp [generatePDF, h]

/-- Witness for C7: a fully completed form prints; blanking one field
blocks. -/
theorem pdf_requires_completed_form_witness :
    isFormCompleted ⟨"Jane Doe", "WC-1001", "Process Worker", "Acme Pty Ltd",
      "Light assembly duties", "Sit-stand workstation", "Heavy lifting",
      "No lifting over 5kg", "2025-01-06", "2025-02-03", "Sam Lee",
      "0400 000 000"⟩ = true ∧
    generatePDF ⟨"Jane Doe", "WC-1001", "Process Worker", "Acme Pty Ltd",
      "Light assembly duties", "Sit-stand workstation", "Heavy lifting",
      "No lifting over 5kg", "2025-01-06", "2025-02-03", "Sam Lee",
      "0400 000 000"⟩ true = PDFOutcome.printed :=
  ⟨by decide,
   ((pdf_requires_completed_form ⟨"Jane Doe", "WC-1001", "Process Worker", "Acme Pty Ltd",
      "Light assembly duties", "Sit-stand workstation", "Heavy lifting",
      "No lifting over 5kg", "2025-01-06", "2025-02-03", "Sam Lee",
      "0400 000 000"⟩ true).2.1).mpr ⟨by decide, rfl⟩⟩

/-! ## AI settings persistence (src/store/aiSettingsStore.ts) -/

/-- One entry of the `availableModels` catalogue. -/
structure AIModel where
  id : String
  name : String
  provider : String
  contextLength : Nat
  costPer1kTokens : ℚ
  description : String
deriving DecidableEq, Repr

def availableModels : List AIModel :=
  [⟨"gpt-4o", "GPT-4o", "openai", 128000, 0.005,
    "Latest GPT-4 model with improved capabilities and lower cost"⟩,
   ⟨"gpt-4o-mini", "GPT-4o Mini", "openai", 128000, 0.00015,
    "Fast and efficient GPT-4 model for general tasks"⟩,
   ⟨"gpt-4-turbo", "GPT-4 Turbo", "openai", 128000, 0.01,
    "Powerful GPT-4 model with large context window"⟩,
   ⟨"gpt-4", "GPT-4", "openai", 8192, 0.03,
    "Highly capable model for complex reasoning tasks"⟩,
   ⟨"gpt-3.5-turbo", "GPT-3.5 Turbo", "openai", 16385, 0.0005,
    "Fast and cost-effective for general tasks"⟩]

/-- The full state of the AI settings store.  `lastConnectionCheck`
(`Date | null`) is modelled as an abstract timestamp. -/
structure AISettingsState where
  selectedModel : String
  availableModels : List AIModel
  isConnected : Bool
  connectionStatus : String
  lastConnectionCheck : Option Nat
  errorMessage : Option String
deriving DecidableEq, Repr

/-- The initial-state literal of the store. -/
def initialAISettings : AISettingsState :=
  ⟨defaultModel, availableModels, false, "disconnected", none, none⟩

/-- The shape returned by `partialize` (only `selectedModel`). -/
structure PersistedAISettings where
  selectedModel : String
deriving DecidableEq, Repr

/-- Embeds `partialize: (state) => ({ selectedModel: state.selectedModel })`. -/
def partializeAISettings (s : AISettingsState) : PersistedAISettings :=
  ⟨s.selectedModel⟩

/-- Modelled from zustand `persist` semantics: on start-up the persisted
object is shallow-merged over the freshly constructed initial state. -/
def rehydrateAISettings (p : PersistedAISettings) : AISettingsState :=
  { initialAISettings with selectedModel := p.selectedModel }

/-- C8: across a restart only `selectedModel` survives — rehydrating the
partialized state restores the selected model and leaves every other
field at its initial default. -/
theorem persisted_ai_settings_only_model (s : AISettingsState) :
    (rehydrateAISettings (partializeAISettings s)).selectedModel = s.selectedModel ∧
    (rehydrateAISettings (partializeAISettings s)).isConnected = false ∧
    (rehydrateAISettings (partializeAISettings s)).connectionStatus = "disconnected" ∧
    (rehydrateAISettings (partializeAISettings s)).lastConnectionCheck = none ∧
    (rehydrateAISettings (partializeAISettings s)).errorMessage = none ∧
    (rehydrateAISettings (partializeAISettings s)).availableModels = availableModels :=
  ⟨rfl, rfl, rfl, rfl, rfl, rfl⟩

/-! ## Supabase service (src/services/supabaseService.ts)

The supabase client never throws from a query; it returns a
`{ data, error }` pair, while a timeout race or a rethrown error object
surfaces as an exception caught by the surrounding `try`.  `DbOutcome`
distinguishes the three cases.  The row-to-domain transformations
(`transformCaseFromDB`) are pure field shuffles irrelevant to every
claim and are abstracted as function parameters.
-/

inductive DbOutcome (α : Type) where
  | ok (v : α)
  | dbError (code : String) (message : String)
  | thrown (message : String)

/-- The `try` body of `getCase`: `PGRST116` (row not found) returns
null, any other query error is rethrown. -/
def getCaseTry {Row Case : Type} (transformCaseFromDB : Row → Case)
    (fetch : DbOutcome Row) : Except String (Option Case) :=
  match fetch with
  | DbOutcome.ok row => Except.ok (some (transformCaseFromDB row))
  | DbOutcome.dbError code message =>
    if code = "PGRST116" then Except.ok none else Except.error message
  | DbOutcome.thrown message => Except.error message

/-- Embeds `getCase`: the catch block converts any exception to null. -/
def getCase {Row Case : Type} (transformCaseFromDB : Row → Case)
    (fetch : DbOutcome Row) : Option Case :=
  match getCaseTry transformCaseFromDB fetch with
  | Except.ok v => v
  | Except.error _ => none

/-- Result of the auth lookup (including the localStorage fallback): an
authenticated user id, or none. -/
inductive UserLookup where
  | noUser
  | user (id : String)

/-- Embeds `getCurrentUser`: null without a user; a profile query error returns
null, and a thrown profile-fetch timeout is caught and returns null. -/
def getCurrentUser {Profile : Type} (auth : UserLookup)
    (profileFetch : DbOutcome Profile) : Option Profile :=
  match auth with
  | UserLookup.noUser => none
  | UserLookup.user _ =>
    match profileFetch with
    | DbOutcome.ok p => some p
    | DbOutcome.dbError _ _ => none
    | DbOutcome.thrown _ => none

/-- Embeds `getCases`: a failed health check throws inside the `try`; a cases
query error is rethrown; a timeout rejects; the catch block returns the
empty list in every one of these cases. -/
def getCases {Row Case : Type} (transformCaseFromDB : Row → Case)
    (healthConnected : Bool) (casesFetch : DbOutcome (List Row)) : List Case :=
  if !healthConnected then []
  else
    match casesFetch with
    | DbOutcome.ok rows => rows.map transformCaseFromDB
    | DbOutcome.dbError _ _ => []
    | DbOutcome.thrown _ => []

/-- C9: missing data is not-found, not fatal — `getCase` returns null on
a missing row and on every fetch error, `getCurrentUser` returns null
without an authenticated user and on every profile-fetch failure, and
`getCases` returns the empty list on every fetch failure.  All three
embeddings are total functions, so none of them can throw. -/
theorem missing_data_not_fatal {Row Case Profile : Type}
    (transformCaseFromDB : Row → Case) :
    (∀ msg, getCase transformCaseFromDB (DbOutcome.dbError "PGRST116" msg) = none) ∧
    (∀ code msg, getCase transformCaseFromDB (DbOutcome.dbError code msg) = none) ∧
    (∀ msg, getCase transformCaseFromDB (DbOutcome.thrown msg) = none) ∧
    (∀ pf : DbOutcome Profile, getCurrentUser UserLookup.noUser pf = none) ∧
    (∀ uid code msg,
      @getCurrentUser Profile (UserLookup.user uid) (DbOutcome.dbError code msg) = none) ∧
    (∀ uid msg,
      @getCurrentUser Profile (UserLookup.user uid) (DbOutcome.thrown msg) = none) ∧
    (∀ fetch, getCases transformCaseFromDB false fetch = []) ∧
    (∀ code msg, getCases transformCaseFromDB true (DbOutcome.dbError code msg) = []) ∧
    (∀ msg, getCases transformCaseFromDB true (DbOutcome.thrown msg) = []) := by
  refine ⟨fun msg => rfl, ?_, fun msg => rfl, fun pf => rfl, fun uid code msg => rfl,
          fun uid msg => rfl, fun fetch => rfl, fun code msg => rfl, fun msg => rfl⟩
  intro code msg
  unfold getCase getCaseTry
  by_cases h : code = "PGRST116" <;> simp [h]

/-! ## `calculateWeekTotal` (src/components/cases/RTWPlanner.tsx) -/

/-- One week-hours record of the planner form (all fields user-typed
strings). -/
structure WeekStrHours where
  mon : String
  tue : String
  wed : String
  thu : String
  fri : String
  sat : String
  sun : String
  total : String
deriving DecidableEq, Repr

/-- Embeds `Object.keys(weekHours)` in insertion order. -/
def weekKeys : List String :=
  ["mon", "tue", "wed", "thu", "fri", "sat", "sun", "total"]

/-- Embeds `weekHours[day]`. -/
def weekField (w : WeekStrHours) : String → String
  | "mon" => w.mon
  | "tue" => w.tue
  | "wed" => w.wed
  | "thu" => w.thu
  | "fri" => w.fri
  | "sat" => w.sat
  | "sun" => w.sun
  | "total" => w.total
  | _ => ""

/-- JS `parseFloat` restricted to plain decimal notation (optional
whitespace, sign, integer and fraction digits, longest prefix; the
exponent and `Infinity` forms never arise for hour inputs).  `none`
models `NaN`. -/
def jsParseFloat (cs : List Char) : Option ℚ :=
  let cs1 := cs.dropWhile isWs
  let sign : ℚ :=
    match cs1 with
    | '-' :: _ => -1
    | _ => 1
  let cs2 :=
    match cs1 with
    | '-' :: r => r
    | '+' :: r => r
    | _ => cs1
  let ip := cs2.takeWhile isDigit
  let rest := cs2.dropWhile isDigit
  let fp :=
    match rest with
    | '.' :: r => r.takeWhile isDigit
    | _ => []
  if ip = [] && fp = [] then none
  else some (sign * decToRat ip fp)

/-- Embeds `parseFloat(weekHours[day]) || 0`: `NaN` collapses to `0` (so does a
parsed `0`, which is the same value). -/
def jsParseFloatOr0 (s : String) : ℚ :=
  match jsParseFloat s.data with
  | none => 0
  | some q => q

/-- Embeds `calculateWeekTotal` (the trailing `.toString()` rendering is
elided; the value is returned as a rational). -/
def calculateWeekTotal (weekHours : WeekStrHours) : ℚ :=
  weekKeys.foldl
    (fun sum day =>
      if day ≠ "total" then sum + jsParseFloatOr0 (weekField weekHours day) else sum)
    0

/-- C10: `calculateWeekTotal` sums the seven daily fields parsed as
decimal numbers — an empty or unparsable entry contributing 0 — and the
stored `total` field never enters the computation.  The embedding is a
total function, so the source function never throws. -/
theorem calculate_week_total_spec (w : WeekStrHours) :
    calculateWeekTotal w =
      jsParseFloatOr0 w.mon + jsParseFloatOr0 w.tue + jsParseFloatOr0 w.wed +
        jsParseFloatOr0 w.thu + jsParseFloatOr0 w.fri + jsParseFloatOr0 w.sat +
        jsParseFloatOr0 w.sun ∧
    (∀ t, calculateWeekTotal { w with total := t } = calculateWeekTotal w) ∧
    jsParseFloatOr0 "" = 0 ∧
    jsParseFloatOr0 "n/a" = 0 := by
  refine ⟨?_, fun t => rfl, ?_, ?_⟩
  · simp [calculateWeekTotal, weekKeys, weekField, add_assoc]
  · simp [jsParseFloatOr0, jsParseFloat, isWs, isDigit]
  · simp [jsParseFloatOr0, jsParseFloat, isWs, isDigit]

end CMnew
